import Mathlib

/-!
Shallow embedding of the openclaw-whatsapp bridge core: the webhook delivery
subsystem, the agent trigger subsystem, the session manager's status/logout
logic, and the reconnect supervisor's backoff, translated from the Go sources
in `bridge/webhook.go`, `bridge/agent.go`, `bridge/client.go`,
`bridge/reconnect.go` and `main.go`.

Timestamps and durations are modelled as integers in nanoseconds, matching
Go's `time.Duration` and `time.Time` comparisons used by the code.
-/

namespace Bridge

/-- One nanosecond-denominated second, as in Go's `time.Second`. -/
def second : Int := 1000000000

/-- Go's `time.Minute`. -/
def minute : Int := 60 * second

/-- `seenTTL` from `bridge/webhook.go`: time-to-live of dedup entries. -/
def seenTTL : Int := 5 * minute

/-- `WebhookPayload` from `bridge/webhook.go` (field names as in the Go struct). -/
structure WebhookPayload where
  From      : String
  Name      : String
  Message   : String
  Timestamp : Int
  -- `Type` in the Go struct; `Type` is a Lean keyword.
  MsgType   : String
  MediaURL  : String
  ChatType  : String
  GroupName : String
  MessageID : String
  deriving Repr, DecidableEq

/-- `WebhookFilters` from `bridge/webhook.go`. -/
structure WebhookFilters where
  DMOnly       : Bool
  IgnoreGroups : List String
  deriving Repr, DecidableEq

/-- The configuration part of `WebhookSender` (its `url` and `filters` fields).
The mutable `seen` map is threaded explicitly through `send`. -/
structure WebhookConfig where
  url     : String
  filters : WebhookFilters
  deriving Repr, DecidableEq

/-- The `seen` map of `WebhookSender`: message ID -> first-seen time.
Modelled as an association list with unique keys. -/
def SeenMap := List (String × Int)

instance : DecidableEq SeenMap := inferInstanceAs (DecidableEq (List (String × Int)))

/-- `cleanupSeenLocked` from `bridge/webhook.go`: drop entries whose
first-seen time is before `now - seenTTL` (Go: `t.Before(cutoff)`). -/
def cleanupSeenLocked (now : Int) (seen : SeenMap) : SeenMap :=
  seen.filter fun e => !decide (e.2 < now - seenTTL)

/-- What a single `WebhookSender.Send` call did, distinguishing each early
return of the Go code and whether an HTTP POST went out. -/
inductive SendOutcome where
  /-- `w.url == ""`: no-op success. -/
  | skippedNoURL
  /-- message ID already in `seen`: dropped, success. -/
  | dupDropped
  /-- `filters.DMOnly` and the payload is a group chat: dropped, success. -/
  | filteredDMOnly
  /-- chat id or group name matches `filters.IgnoreGroups`: dropped, success. -/
  | filteredIgnore
  /-- POST happened and got an HTTP status back (2xx or not): success. -/
  | posted (status : Int)
  /-- POST happened but the network request failed: `Send` returns an error. -/
  | postFailed
  deriving Repr, DecidableEq

/-- Whether the outcome involved an outbound HTTP POST. -/
def SendOutcome.didPost : SendOutcome → Bool
  | .posted _  => true
  | .postFailed => true
  | _ => false

/-- Whether `Send` returned `nil` (every path except a failed POST). -/
def SendOutcome.isOk : SendOutcome → Bool
  | .postFailed => false
  | _ => true

/-- The ignore-list check of `Send`: some entry of `IgnoreGroups` equals the
payload's `From` or its `GroupName`. -/
def ignoreMatch (f : WebhookFilters) (p : WebhookPayload) : Bool :=
  f.IgnoreGroups.any fun ignored => p.From == ignored || p.GroupName == ignored

/-- `WebhookSender.Send` from `bridge/webhook.go`, with the wall clock (`now`)
and the HTTP response (`httpResp`; `none` models a network error, `some c` a
response with status `c`) passed in as oracles. Returns the updated `seen`
map and what happened. -/
def send (cfg : WebhookConfig) (now : Int) (httpResp : Option Int)
    (p : WebhookPayload) (seen : SeenMap) : SeenMap × SendOutcome :=
  if cfg.url = "" then
    (seen, .skippedNoURL)
  else
    -- Housekeeping: remove stale dedup entries before checking.
    let seen1 := cleanupSeenLocked now seen
    -- Dedup: skip if we have already seen this message ID.
    if (seen1.lookup p.MessageID).isSome then
      (seen1, .dupDropped)
    else
      -- Record this message ID.
      let seen2 := (p.MessageID, now) :: seen1
      -- Apply filters.
      if cfg.filters.DMOnly && (p.ChatType == "group") then
        (seen2, .filteredDMOnly)
      else if ignoreMatch cfg.filters p then
        (seen2, .filteredIgnore)
      else
        match httpResp with
        | none => (seen2, .postFailed)
        | some code => (seen2, .posted code)

/-! ## String helpers: `strings.ReplaceAll`, shell escaping -/

/-- The single-quote character (code 39). -/
def squote : Char := Char.ofNat 39

/-- The double-quote character (code 34). -/
def dquote : Char := Char.ofNat 34

/-- Whether `pat` is a prefix of `l` (the per-position match test of
`strings.ReplaceAll`). -/
def matchesAt : List Char → List Char → Bool
  | [], _ => true
  | _ :: _, [] => false
  | p :: ps, c :: cs => p == c && matchesAt ps cs

/-- Worker for `replaceAllL`: scans the input left to right; `skip > 0` means
that many characters of an already-replaced match remain to be consumed. -/
def raAux (pat rep : List Char) : Nat → List Char → List Char
  | _, [] => []
  | k + 1, _ :: rest => raAux pat rep k rest
  | 0, c :: rest =>
      if !pat.isEmpty && matchesAt pat (c :: rest) then
        rep ++ raAux pat rep (pat.length - 1) rest
      else
        c :: raAux pat rep 0 rest

/-- `strings.ReplaceAll` on character lists, for a non-empty pattern:
leftmost, non-overlapping matches, and the replacement is never rescanned. -/
def replaceAllL (pat rep l : List Char) : List Char :=
  raAux pat rep 0 l

/-- `strings.ReplaceAll` on strings (non-empty pattern). -/
def replaceAll (s pat rep : String) : String :=
  ⟨replaceAllL pat.data rep.data s.data⟩

/-- `shellEscape` from `bridge/agent.go`: replace every single quote with the
sequence quote, double-quote, quote, double-quote, quote (Go:
`strings.ReplaceAll(s, "'", "'\"'\"'")`). -/
def shellEscape (s : String) : String :=
  replaceAll s "'" "'\"'\"'"

/-- The left-brace character (code 123), the first character of every
template placeholder. -/
def lbrace : Char := Char.ofNat 123

/-- Character-level view of `shellEscape`: what one input character becomes. -/
def escChar (c : Char) : List Char :=
  if c = squote then [squote, dquote, squote, dquote, squote] else [c]

/-- Character-level view of `shellEscape` on a whole character list. -/
def escL (l : List Char) : List Char :=
  l.flatMap escChar

/-! ## A POSIX quoting scanner

Used to state what "syntactically valid" and "the value stays inside the
intended argument" mean for the expanded agent command. It models POSIX
single- and double-quote handling for command strings that contain no
backslash escapes or expansions (true of the templates and values in the
theorems below): `content` collects the literal characters the command words
receive, `bare` the subset of those received outside any quotes. -/

/-- Quoting state of the scanner. -/
inductive QState where
  | unq
  | inSingle
  | inDouble
  deriving Repr, DecidableEq

/-- Scanner state: quoting mode, all literal characters, unquoted ones. -/
structure ScanState where
  q       : QState
  content : List Char
  bare    : List Char
  deriving Repr, DecidableEq

/-- One scanner step. -/
def scanStep (st : ScanState) (c : Char) : ScanState :=
  match st.q with
  | .unq =>
      if c = squote then { st with q := .inSingle }
      else if c = dquote then { st with q := .inDouble }
      else { st with content := st.content ++ [c], bare := st.bare ++ [c] }
  | .inSingle =>
      if c = squote then { st with q := .unq }
      else { st with content := st.content ++ [c] }
  | .inDouble =>
      if c = dquote then { st with q := .unq }
      else { st with content := st.content ++ [c] }

/-- Scan a whole command string from the initial (unquoted, empty) state. -/
def scanQuotes (s : String) : ScanState :=
  s.data.foldl scanStep ⟨.unq, [], []⟩

/-- A command string is syntactically well-quoted when scanning it ends
outside any quote (no unterminated quote). -/
def wellQuoted (s : String) : Prop :=
  (scanQuotes s).q = .unq

instance (s : String) : Decidable (wellQuoted s) :=
  inferInstanceAs (Decidable ((scanQuotes s).q = .unq))

/-! ## Agent trigger (`bridge/agent.go`) -/

/-- `strings.TrimSuffix` on character lists: remove one trailing copy of
`suf` when present. -/
def trimSuffixL (l suf : List Char) : List Char :=
  if suf.length ≤ l.length && matchesAt suf (l.drop (l.length - suf.length)) then
    l.take (l.length - suf.length)
  else l

/-- `strings.TrimPrefix` on character lists: remove one leading copy of
`pre` when present. -/
def trimPrefixL (l pre : List Char) : List Char :=
  if matchesAt pre l then l.drop pre.length else l

/-- `normalizeNumber` from `bridge/agent.go`: strip the `@s.whatsapp.net`
suffix and a leading `+`. -/
def normalizeNumber (s : String) : String :=
  ⟨trimPrefixL (trimSuffixL s.data ("@s.whatsapp.net".data)) ("+".data)⟩

/-- The configuration fields of `AgentTrigger` (`bridge/agent.go`). -/
structure AgentConfig where
  enabled       : Bool
  mode          : String
  command       : String
  httpURL       : String
  replyEndpoint : String
  systemPrompt  : String
  ignoreFromMe  : Bool
  dmOnly        : Bool
  allowlist     : List String
  blocklist     : List String
  timeout       : Int
  deriving Repr, DecidableEq

/-- `NewAgentTrigger` from `bridge/agent.go`: the allow and block lists are
normalized with `normalizeNumber` at construction time. -/
def NewAgentTrigger (enabled : Bool) (mode command httpURL replyEndpoint systemPrompt : String)
    (ignoreFromMe dmOnly : Bool) (allowlist blocklist : List String) (timeout : Int) :
    AgentConfig :=
  { enabled, mode, command, httpURL, replyEndpoint, systemPrompt, ignoreFromMe, dmOnly,
    allowlist := allowlist.map normalizeNumber,
    blocklist := blocklist.map normalizeNumber,
    timeout }

/-- The detached task `Trigger` spawns: command mode or HTTP mode. -/
inductive AgentAction where
  | command
  | http
  deriving Repr, DecidableEq

/-- The externally visible effects of one `AgentTrigger.Trigger` call:
whether a "composing" presence signal was sent, and which detached task (if
any) was spawned. -/
structure TriggerResult where
  typingSent : Bool
  action     : Option AgentAction
  deriving Repr, DecidableEq

/-- `AgentTrigger.Trigger` from `bridge/agent.go`. -/
def Trigger (a : AgentConfig) (p : WebhookPayload) : TriggerResult :=
  if !a.enabled then ⟨false, none⟩
  else if a.dmOnly && (p.ChatType == "group") then ⟨false, none⟩
  else
    let sender := normalizeNumber p.From
    if !a.blocklist.isEmpty && a.blocklist.contains sender then ⟨false, none⟩
    else if !a.allowlist.isEmpty && !(a.allowlist.contains sender) then ⟨false, none⟩
    else
      -- sendTyping, then the async task: "http" mode or (default) command mode.
      ⟨true, some (match a.mode with | "http" => .http | _ => .command)⟩

/-- The replacement map of `AgentTrigger.expandTemplate`, in the textual
order of the Go map literal. (Go iterates map entries in unspecified order;
the theorems below only use templates and values for which the order is
irrelevant.) -/
def replacements (a : AgentConfig) (p : WebhookPayload) : List (String × String) :=
  [("{from}", shellEscape p.From),
   ("{name}", shellEscape p.Name),
   ("{message}", shellEscape p.Message),
   ("{chat_jid}", shellEscape p.From),
   ("{type}", shellEscape p.MsgType),
   ("{is_group}", if p.ChatType == "group" then "true" else "false"),
   ("{group_name}", shellEscape p.GroupName),
   ("{message_id}", shellEscape p.MessageID),
   ("{system_prompt}", shellEscape a.systemPrompt)]

/-- `AgentTrigger.expandTemplate` from `bridge/agent.go`: apply
`strings.ReplaceAll` for every placeholder. -/
def expandTemplate (a : AgentConfig) (tmpl : String) (p : WebhookPayload) : String :=
  (replacements a p).foldl (fun result kv => replaceAll result kv.1 kv.2) tmpl

/-! ## Session manager status and logout (`bridge/client.go`) -/

/-- Connection status (`Status` in `bridge/client.go`). -/
inductive Status where
  | disconnected
  | connecting
  | connected
  deriving Repr, DecidableEq, BEq

/-- The parts of the wrapped whatsmeow client the session manager queries:
`IsConnected()` (live websocket) and `Store.ID` (paired identity). -/
structure WmClient where
  connected : Bool
  storeID   : Option String
  deriving Repr, DecidableEq

/-- The guarded mutable state of `Client` (`bridge/client.go`): the transport
handle, the stored status, and the latest QR string. -/
structure ClientState where
  client   : Option WmClient
  status   : Status
  latestQR : String
  deriving Repr, DecidableEq

/-- `c.client != nil && c.client.IsConnected()`. -/
def transportLive (s : ClientState) : Bool :=
  match s.client with
  | some c => c.connected
  | none => false

/-- `c.client != nil && c.client.Store.ID != nil`. -/
def identityPaired (s : ClientState) : Bool :=
  match s.client with
  | some c => c.storeID.isSome
  | none => false

/-- `Client.GetStatus` from `bridge/client.go`. -/
def GetStatus (s : ClientState) : Status :=
  if transportLive s && identityPaired s then .connected
  else if transportLive s && !identityPaired s then .connecting
  else if s.status = Status.connecting then .connecting
  else .disconnected

/-- `Client.Disconnect` from `bridge/client.go`: tear down the transport
(the handle is kept, its websocket closed), mark disconnected, clear the QR. -/
def Disconnect (s : ClientState) : ClientState :=
  { client := s.client.map fun c => { c with connected := false },
    status := .disconnected,
    latestQR := "" }

/-- `Client.Logout` from `bridge/client.go`, with the protocol engine's
logout outcome passed in as an oracle (`engineErr = true` models
`cli.Logout(...)` returning an error; the engine's own session clearing on
success is external to this state). Returns the new state and the error. -/
def Logout (engineErr : Bool) (s : ClientState) : ClientState × Option String :=
  match s.client with
  | none => (s, none)
  | some _ =>
      if engineErr then (s, some "logout")
      else (Disconnect s, none)

/-! ## Reconnect supervisor backoff (`bridge/reconnect.go`) -/

/-- `maxBackoff` from `bridge/reconnect.go`: 5 minutes. -/
def maxBackoff : Int := 5 * minute

/-- The base backoff the loop starts from and resets to:
`backoff = interval; if backoff < time.Second { backoff = time.Second }`. -/
def clampToBase (interval : Int) : Int :=
  if interval < second then second else interval

/-- One tick of `reconnectLoop` (`bridge/reconnect.go`), restricted to the
backoff variable. `connected` is `client.IsConnected()`, `hasSession` is
`client.HasSession()`, and `connectOk` tells whether the attempted
`client.Connect` returned nil (only consulted when an attempt runs). -/
def tickBackoff (interval : Int) (connected hasSession connectOk : Bool)
    (backoff : Int) : Int :=
  if connected then clampToBase interval
  else if !hasSession then backoff
  else if !connectOk then
    let b := backoff * 2
    if b > maxBackoff then maxBackoff else b
  else clampToBase interval

/-! ## Event-pipeline fan-out (`handleMessage` / `runStart`) -/

/-- Modelled from the spec: the agent-aware tail of the event pipeline.
`runStart` (main.go) wires a five-argument
`MakeEventHandler(client, msgStore, webhook, agent, log)`, but the captured
`bridge` sources only contain a four-argument variant whose `handleMessage`
posts the webhook and never touches the agent; the handler actually wired in
is therefore missing from the sources. Following the spec — "build the
notification payload and hand it, independently, to Webhook Delivery and
Agent Trigger" — the missing hand-off runs `send` and `Trigger` on the same
payload, each over its own configuration and state. -/
def handOff (wcfg : WebhookConfig) (acfg : AgentConfig) (now : Int)
    (httpResp : Option Int) (p : WebhookPayload) (seen : SeenMap) :
    (SeenMap × SendOutcome) × TriggerResult :=
  let w := send wcfg now httpResp p seen
  let t := Trigger acfg p
  (w, t)

/-- Modelled from the spec: the same hand-off with the two deliveries in the
opposite order (agent first, webhook second). -/
def handOffSwapped (wcfg : WebhookConfig) (acfg : AgentConfig) (now : Int)
    (httpResp : Option Int) (p : WebhookPayload) (seen : SeenMap) :
    (SeenMap × SendOutcome) × TriggerResult :=
  let t := Trigger acfg p
  let w := send wcfg now httpResp p seen
  (w, t)

/-! ## Theorems -/

/-- Supporting lemma: a key absent from an association list is still absent
after filtering. -/
theorem lookup_none_filter {l : List (String × Int)} {k : String}
    (h : l.lookup k = none) (f : String × Int → Bool) :
    (l.filter f).lookup k = none := by
  induction l with
  | nil => simp [List.filter]
  | cons e rest ih =>
      rw [List.lookup] at h
      cases hk : (k == e.1) with
      | true => rw [hk] at h; simp at h
      | false =>
          rw [hk] at h
          by_cases hf : f e
          · simp [List.filter, hf, List.lookup, hk, ih h]
          · simp [List.filter, hf, ih h]

/-- Supporting lemma: cleanup preserves absence of a key. -/
theorem lookup_none_cleanup {seen : SeenMap} {k : String}
    (h : seen.lookup k = none) (now : Int) :
    (cleanupSeenLocked now seen).lookup k = none :=
  lookup_none_filter h _

/-- Supporting lemma: `send` with a configured URL and an unseen message id
records that id at the current time, whatever the filters and the HTTP
outcome do. -/
theorem send_records_fresh_id (cfg : WebhookConfig) (now : Int) (r : Option Int)
    (p : WebhookPayload) (seen : SeenMap)
    (hurl : ¬ cfg.url = "")
    (hfresh : (cleanupSeenLocked now seen).lookup p.MessageID = none) :
    (send cfg now r p seen).1 = (p.MessageID, now) :: cleanupSeenLocked now seen := by
  unfold send
  rw [if_neg hurl]
  simp only [hfresh, Option.isSome_none, Bool.false_eq_true, if_false]
  split
  · rfl
  · split
    · rfl
    · cases r <;> rfl

/-- Supporting lemma: a duplicate id arriving within the TTL of the recorded
time is dropped by dedup. -/
theorem send_dup_dropped (cfg : WebhookConfig) (t1 t2 : Int) (r2 : Option Int)
    (p2 : WebhookPayload) (rest : SeenMap)
    (hurl : ¬ cfg.url = "")
    (httl : t2 - t1 ≤ seenTTL) :
    (send cfg t2 r2 p2 ((p2.MessageID, t1) :: rest)).2 = .dupDropped := by
  have hkeep : (!decide (t1 < t2 - seenTTL)) = true := by
    simp only [Bool.not_eq_true']
    exact decide_eq_false (by omega)
  unfold send
  rw [if_neg hurl]
  have hclean : cleanupSeenLocked t2 ((p2.MessageID, t1) :: rest)
      = (p2.MessageID, t1) :: cleanupSeenLocked t2 rest := by
    unfold cleanupSeenLocked
    rw [List.filter_cons]
    simp only [hkeep, if_true]
  rw [hclean]
  simp [List.lookup]

/-- C2: two `Send` calls with the same (previously unseen) message id, the
second within the TTL of the first, make at most one outbound POST, and the
second call returns success without sending. -/
theorem webhook_dedup_within_ttl (cfg : WebhookConfig) (t1 t2 : Int)
    (r1 r2 : Option Int) (p1 p2 : WebhookPayload) (seen : SeenMap)
    (hid : p2.MessageID = p1.MessageID)
    (hfresh : seen.lookup p1.MessageID = none)
    (h12 : t1 ≤ t2) (httl : t2 - t1 ≤ seenTTL) :
    ((if (send cfg t1 r1 p1 seen).2.didPost then 1 else 0)
      + (if (send cfg t2 r2 p2 (send cfg t1 r1 p1 seen).1).2.didPost then 1 else 0) ≤ 1)
    ∧ (send cfg t2 r2 p2 (send cfg t1 r1 p1 seen).1).2.didPost = false
    ∧ (send cfg t2 r2 p2 (send cfg t1 r1 p1 seen).1).2.isOk = true := by
  by_cases hurl : cfg.url = ""
  · simp [send, hurl, SendOutcome.didPost, SendOutcome.isOk]
  · have hfresh1 := lookup_none_cleanup hfresh t1
    have hrec := send_records_fresh_id cfg t1 r1 p1 seen hurl hfresh1
    have hdup : (send cfg t2 r2 p2 (send cfg t1 r1 p1 seen).1).2 = .dupDropped := by
      rw [hrec, ← hid]
      exact send_dup_dropped cfg t1 t2 r2 p2 _ hurl httl
    rw [hdup]
    refine ⟨?_, rfl, rfl⟩
    cases (send cfg t1 r1 p1 seen).2.didPost <;> simp [SendOutcome.didPost]

/-- C2 witness. -/
theorem webhook_dedup_within_ttl_witness :
    ((if (send ⟨"http://h", ⟨false, []⟩⟩ 0 (some 200)
          ⟨"1@s.whatsapp.net", "", "hi", 0, "text", "", "dm", "", "ID1"⟩ []).2.didPost then 1 else 0)
      + (if (send ⟨"http://h", ⟨false, []⟩⟩ 7 (some 200)
          ⟨"1@s.whatsapp.net", "", "hi again", 7, "text", "", "dm", "", "ID1"⟩
          (send ⟨"http://h", ⟨false, []⟩⟩ 0 (some 200)
            ⟨"1@s.whatsapp.net", "", "hi", 0, "text", "", "dm", "", "ID1"⟩ []).1).2.didPost
         then 1 else 0) ≤ 1)
    ∧ (send ⟨"http://h", ⟨false, []⟩⟩ 7 (some 200)
        ⟨"1@s.whatsapp.net", "", "hi again", 7, "text", "", "dm", "", "ID1"⟩
        (send ⟨"http://h", ⟨false, []⟩⟩ 0 (some 200)
          ⟨"1@s.whatsapp.net", "", "hi", 0, "text", "", "dm", "", "ID1"⟩ []).1).2.didPost = false
    ∧ (send ⟨"http://h", ⟨false, []⟩⟩ 7 (some 200)
        ⟨"1@s.whatsapp.net", "", "hi again", 7, "text", "", "dm", "", "ID1"⟩
        (send ⟨"http://h", ⟨false, []⟩⟩ 0 (some 200)
          ⟨"1@s.whatsapp.net", "", "hi", 0, "text", "", "dm", "", "ID1"⟩ []).1).2.isOk = true :=
  webhook_dedup_within_ttl _ 0 7 (some 200) (some 200) _ _ [] rfl rfl
    (by decide) (by decide)

/-- Supporting lemma: with a configured URL, an unseen id and a filter
condition that matches, `Send` ends in a filter drop (DM-only wins over the
ignore list when both apply). -/
theorem send_filtered_outcome (cfg : WebhookConfig) (t1 : Int) (r1 : Option Int)
    (p : WebhookPayload) (seen : SeenMap)
    (hurl : ¬ cfg.url = "")
    (hfresh : (cleanupSeenLocked t1 seen).lookup p.MessageID = none)
    (hdrop : (cfg.filters.DMOnly = true ∧ p.ChatType = "group")
             ∨ ignoreMatch cfg.filters p = true) :
    (send cfg t1 r1 p seen).2 = .filteredDMOnly
    ∨ (send cfg t1 r1 p seen).2 = .filteredIgnore := by
  unfold send
  rw [if_neg hurl]
  simp only [hfresh, Option.isSome_none, Bool.false_eq_true, if_false]
  by_cases hdm : cfg.filters.DMOnly && (p.ChatType == "group")
  · left; simp [hdm]
  · right
    rw [if_neg (by simpa using hdm)]
    have hig : ignoreMatch cfg.filters p = true := by
      rcases hdrop with ⟨h1, h2⟩ | h
      · exact absurd (by simp [h1, h2]) hdm
      · exact h
    simp [hig]

/-- C3: `Send` records the id before filtering — a payload dropped by a
filter (DM-only or ignore list) makes no POST but still consumes the dedup
slot, so a later duplicate with the same id within the TTL is dropped by
dedup. -/
theorem webhook_seen_before_filter (cfg : WebhookConfig) (t1 : Int)
    (r1 : Option Int) (p : WebhookPayload) (seen : SeenMap)
    (hurl : ¬ cfg.url = "")
    (hfresh : (cleanupSeenLocked t1 seen).lookup p.MessageID = none)
    (hdrop : (cfg.filters.DMOnly = true ∧ p.ChatType = "group")
             ∨ ignoreMatch cfg.filters p = true) :
    ((send cfg t1 r1 p seen).2 = .filteredDMOnly
      ∨ (send cfg t1 r1 p seen).2 = .filteredIgnore)
    ∧ (send cfg t1 r1 p seen).2.didPost = false
    ∧ (send cfg t1 r1 p seen).1.lookup p.MessageID = some t1
    ∧ (∀ (t2 : Int) (r2 : Option Int) (p2 : WebhookPayload),
        p2.MessageID = p.MessageID → t2 - t1 ≤ seenTTL →
        (send cfg t2 r2 p2 (send cfg t1 r1 p seen).1).2 = .dupDropped
        ∧ (send cfg t2 r2 p2 (send cfg t1 r1 p seen).1).2.didPost = false) := by
  have hout := send_filtered_outcome cfg t1 r1 p seen hurl hfresh hdrop
  have hrec := send_records_fresh_id cfg t1 r1 p seen hurl hfresh
  refine ⟨hout, ?_, ?_, ?_⟩
  · rcases hout with h | h <;> rw [h] <;> rfl
  · rw [hrec]; simp [List.lookup]
  · intro t2 r2 p2 hid httl
    have hdup : (send cfg t2 r2 p2 (send cfg t1 r1 p seen).1).2 = .dupDropped := by
      rw [hrec, ← hid]
      exact send_dup_dropped cfg t1 t2 r2 p2 _ hurl httl
    exact ⟨hdup, by rw [hdup]; rfl⟩

/-- C3 witness: a group message dropped by the DM-only filter still blocks a
later duplicate. -/
theorem webhook_seen_before_filter_witness :
    ((send ⟨"http://h", ⟨true, []⟩⟩ 0 (some 200)
        ⟨"g1@g.us", "", "hey", 0, "text", "", "group", "G", "ID2"⟩ []).2 = .filteredDMOnly
      ∨ (send ⟨"http://h", ⟨true, []⟩⟩ 0 (some 200)
        ⟨"g1@g.us", "", "hey", 0, "text", "", "group", "G", "ID2"⟩ []).2 = .filteredIgnore)
    ∧ (send ⟨"http://h", ⟨true, []⟩⟩ 9 (some 200)
        ⟨"g1@g.us", "", "hey", 9, "text", "", "group", "G", "ID2"⟩
        (send ⟨"http://h", ⟨true, []⟩⟩ 0 (some 200)
          ⟨"g1@g.us", "", "hey", 0, "text", "", "group", "G", "ID2"⟩ []).1).2 = .dupDropped := by
  have h := webhook_seen_before_filter ⟨"http://h", ⟨true, []⟩⟩ 0 (some 200)
    ⟨"g1@g.us", "", "hey", 0, "text", "", "group", "G", "ID2"⟩ []
    (by decide) (by decide) (Or.inl ⟨rfl, rfl⟩)
  exact ⟨h.1, (h.2.2.2 9 (some 200)
    ⟨"g1@g.us", "", "hey", 9, "text", "", "group", "G", "ID2"⟩ rfl (by decide)).1⟩

/-- C10: with no webhook URL configured, `Send` returns success immediately
and the dedup table is exactly the input one — the id is not recorded and no
purge happens. -/
theorem send_no_url_noop (cfg : WebhookConfig) (now : Int) (r : Option Int)
    (p : WebhookPayload) (seen : SeenMap)
    (hurl : cfg.url = "") :
    send cfg now r p seen = (seen, .skippedNoURL)
    ∧ SendOutcome.isOk (send cfg now r p seen).2 = true := by
  constructor
  · unfold send; rw [if_pos hurl]
  · unfold send; rw [if_pos hurl]; rfl

/-- C10 witness. -/
theorem send_no_url_noop_witness :
    send ⟨"", ⟨false, []⟩⟩ 5 none
      ⟨"1@s.whatsapp.net", "", "hi", 5, "text", "", "dm", "", "ID3"⟩
      [("OLD", -999999999999)]
      = ([("OLD", -999999999999)], .skippedNoURL) :=
  (send_no_url_noop ⟨"", ⟨false, []⟩⟩ 5 none
    ⟨"1@s.whatsapp.net", "", "hi", 5, "text", "", "dm", "", "ID3"⟩
    [("OLD", -999999999999)] rfl).1

/-- C4: `GetStatus` is a three-way resolution — `connected` exactly when the
transport is live and the identity is paired; `connecting` exactly when the
transport is live but unpaired, or when a connect attempt is in flight (the
stored status is `connecting`) and the live-and-paired case does not already
apply; `disconnected` in every other state. -/
theorem getStatus_three_way (s : ClientState) :
    (GetStatus s = .connected ↔ (transportLive s = true ∧ identityPaired s = true))
    ∧ (GetStatus s = .connecting ↔
        ((transportLive s = true ∧ identityPaired s = false)
          ∨ (¬(transportLive s = true ∧ identityPaired s = true)
              ∧ s.status = .connecting)))
    ∧ (GetStatus s = .disconnected ↔
        (¬(transportLive s = true ∧ identityPaired s = true)
          ∧ ¬(transportLive s = true ∧ identityPaired s = false)
          ∧ ¬ s.status = .connecting)) := by
  cases hL : transportLive s <;> cases hP : identityPaired s <;>
    cases hS : s.status <;> simp [GetStatus, hL, hP, hS]

/-- C9: if the protocol engine's logout fails, `Logout` returns the error and
the whole client state — status, latest QR, transport handle — is unchanged
(`Disconnect` is not reached). -/
theorem logout_engine_error_state_unchanged (s : ClientState) (c : WmClient)
    (hc : s.client = some c) :
    Logout true s = (s, some "logout")
    ∧ (Logout true s).1.status = s.status
    ∧ (Logout true s).1.latestQR = s.latestQR
    ∧ (Logout true s).1.client = s.client := by
  unfold Logout
  rw [hc]
  simp [hc]

/-- C9 witness. -/
theorem logout_engine_error_state_unchanged_witness :
    Logout true ⟨some ⟨true, some "me@s.whatsapp.net"⟩, .connected, "QR"⟩
      = (⟨some ⟨true, some "me@s.whatsapp.net"⟩, .connected, "QR"⟩, some "logout") :=
  (logout_engine_error_state_unchanged
    ⟨some ⟨true, some "me@s.whatsapp.net"⟩, .connected, "QR"⟩
    ⟨true, some "me@s.whatsapp.net"⟩ rfl).1

/-- C7: with the DM-only flag set, `Trigger` on a group-chat payload is a
complete no-op — no composing presence signal, no command, no HTTP call. -/
theorem trigger_dm_only_group_noop (a : AgentConfig) (p : WebhookPayload)
    (hdm : a.dmOnly = true) (hg : p.ChatType = "group") :
    Trigger a p = ⟨false, none⟩ := by
  unfold Trigger
  cases he : a.enabled
  · simp
  · simp [hdm, hg]

/-- C7 witness. -/
theorem trigger_dm_only_group_noop_witness :
    Trigger
      (NewAgentTrigger true "command" "run {message}" "" "" "" true true [] [] 30)
      ⟨"g1@g.us", "n", "hello", 0, "text", "", "group", "G", "ID4"⟩
      = ⟨false, none⟩ :=
  trigger_dm_only_group_noop
    (NewAgentTrigger true "command" "run {message}" "" "" "" true true [] [] 30)
    ⟨"g1@g.us", "n", "hello", 0, "text", "", "group", "G", "ID4"⟩ rfl rfl

/-- C6: a sender whose normalized id is in a non-empty blocklist never fires
the agent, whatever the allowlist holds; and with an empty allowlist every
non-blocked sender that passes the enabled/DM-only gates fires the agent (no
allowlist-based drop). -/
theorem trigger_blocklist_allowlist (a : AgentConfig) (p : WebhookPayload) :
    (¬ a.blocklist = [] → a.blocklist.contains (normalizeNumber p.From) = true →
        Trigger a p = ⟨false, none⟩)
    ∧ (a.allowlist = [] → a.enabled = true →
        ¬(a.dmOnly = true ∧ p.ChatType = "group") →
        a.blocklist.contains (normalizeNumber p.From) = false →
        (Trigger a p).typingSent = true ∧ (Trigger a p).action.isSome = true) := by
  constructor
  · intro hbne hmem
    unfold Trigger
    cases he : a.enabled
    · simp
    · have hbl : a.blocklist.isEmpty = false := by
        cases hb : a.blocklist with
        | nil => exact absurd hb hbne
        | cons x xs => rfl
      by_cases hdm : (a.dmOnly && (p.ChatType == "group")) = true
      · simp [hdm]
      · rw [if_neg (by simp [he]), if_neg hdm,
          if_pos (show (!a.blocklist.isEmpty
            && a.blocklist.contains (normalizeNumber p.From)) = true by
              simp [hbl]
              exact List.mem_of_elem_eq_true hmem)]
  · intro hal hen hdm hnb
    unfold Trigger
    have hdm' : (a.dmOnly && (p.ChatType == "group")) = false := by
      cases hd : a.dmOnly
      · rfl
      · cases hg : (p.ChatType == "group")
        · simp
        · exact absurd ⟨hd, by simpa using hg⟩ hdm
    rw [if_neg (by simp [hen]), if_neg (by simp [hdm']),
      if_neg (show ¬ (!a.blocklist.isEmpty
        && a.blocklist.contains (normalizeNumber p.From)) = true by
          simp only [Bool.and_eq_true, hnb, Bool.false_eq_true, and_false,
            not_false_eq_true]),
      if_neg (show ¬ (!a.allowlist.isEmpty
        && !a.allowlist.contains (normalizeNumber p.From)) = true by simp [hal])]
    exact ⟨rfl, rfl⟩

/-- C6 witness: a blocklisted sender is dropped even though allowlisted; with
an empty allowlist a non-blocked sender fires. -/
theorem trigger_blocklist_allowlist_witness :
    Trigger
      (NewAgentTrigger true "command" "run {message}" "" "" "" true false
        ["491111"] ["+491111@s.whatsapp.net"] 30)
      ⟨"491111@s.whatsapp.net", "n", "hello", 0, "text", "", "dm", "", "ID5"⟩
      = ⟨false, none⟩
    ∧ (Trigger
        (NewAgentTrigger true "command" "run {message}" "" "" "" true false
          [] ["492222"] 30)
        ⟨"491111@s.whatsapp.net", "n", "hello", 0, "text", "", "dm", "", "ID6"⟩).typingSent
        = true := by
  constructor
  · exact (trigger_blocklist_allowlist
      (NewAgentTrigger true "command" "run {message}" "" "" "" true false
        ["491111"] ["+491111@s.whatsapp.net"] 30)
      ⟨"491111@s.whatsapp.net", "n", "hello", 0, "text", "", "dm", "", "ID5"⟩).1
      (by decide) (by decide)
  · exact ((trigger_blocklist_allowlist
      (NewAgentTrigger true "command" "run {message}" "" "" "" true false
        [] ["492222"] 30)
      ⟨"491111@s.whatsapp.net", "n", "hello", 0, "text", "", "dm", "", "ID6"⟩).2
      rfl rfl (by rintro ⟨_, h⟩; exact absurd h (by decide)) (by decide)).1

/-- C5: the reconnect backoff doubles after each failed attempt up to the
5-minute ceiling (exactly doubling while below it, never exceeding it), and
resets to the base value — the tick interval clamped up to one second, as
the loop initializes it — after a successful attempt or a tick that observes
the client connected. -/
theorem reconnect_backoff_spec (interval b : Int) (cc hs ok : Bool) :
    (cc = true → tickBackoff interval cc hs ok b = clampToBase interval)
    ∧ (cc = false → hs = true → ok = true →
        tickBackoff interval cc hs ok b = clampToBase interval)
    ∧ (cc = false → hs = true → ok = false →
        tickBackoff interval cc hs ok b
            = (if b * 2 > maxBackoff then maxBackoff else b * 2)
        ∧ (b * 2 ≤ maxBackoff → tickBackoff interval cc hs ok b = b * 2)
        ∧ tickBackoff interval cc hs ok b ≤ maxBackoff) := by
  refine ⟨?_, ?_, ?_⟩
  · intro h; subst h; rfl
  · intro h1 h2 h3; subst h1; subst h2; subst h3; rfl
  · intro h1 h2 h3
    subst h1; subst h2; subst h3
    refine ⟨rfl, ?_, ?_⟩
    · intro hle
      have : ¬ b * 2 > maxBackoff := by omega
      simp [tickBackoff, this]
    · by_cases hgt : b * 2 > maxBackoff
      · simp [tickBackoff, hgt]
      · simp only [tickBackoff, Bool.not_true, Bool.false_eq_true, if_false,
          Bool.not_false, if_true, if_neg hgt]
        omega

/-- C5 witness: a failed attempt below the ceiling doubles, one at the
ceiling stays capped, and connected/successful ticks reset to base. -/
theorem reconnect_backoff_spec_witness :
    tickBackoff (30 * second) false true false (60 * second) = 120 * second
    ∧ tickBackoff (30 * second) false true false (4 * minute) = maxBackoff
    ∧ tickBackoff (30 * second) true true false (4 * minute) = 30 * second
    ∧ tickBackoff (30 * second) false true true (4 * minute) = 30 * second := by
  have h1 := ((reconnect_backoff_spec (30 * second) (60 * second) false true false).2.2
    rfl rfl rfl).2.1 (by norm_num [second, minute, maxBackoff])
  have h2 := ((reconnect_backoff_spec (30 * second) (4 * minute) false true false).2.2
    rfl rfl rfl).1
  have h3 := (reconnect_backoff_spec (30 * second) (4 * minute) true true false).1 rfl
  have h4 := (reconnect_backoff_spec (30 * second) (4 * minute) false true true).2.1
    rfl rfl rfl
  refine ⟨?_, ?_, ?_, ?_⟩
  · rw [h1]; norm_num [second]
  · rw [h2]; norm_num [second, minute, maxBackoff]
  · rw [h3]; norm_num [clampToBase, second]
  · rw [h4]; norm_num [clampToBase, second]

/-- C1: the notification payload is handed independently to webhook delivery
and to the agent trigger — the two orders produce the same combined result,
the agent's effects do not depend on anything on the webhook side (its
configuration, clock, dedup state, or a failing POST), and the webhook's
result does not depend on the agent configuration. -/
theorem pipeline_fanout_independent (wcfg wcfg' : WebhookConfig)
    (acfg acfg' : AgentConfig) (now now' : Int) (r r' : Option Int)
    (p : WebhookPayload) (seen seen' : SeenMap) :
    handOff wcfg acfg now r p seen = handOffSwapped wcfg acfg now r p seen
    ∧ (handOff wcfg acfg now r p seen).2 = (handOff wcfg' acfg now' r' p seen').2
    ∧ (handOff wcfg acfg now r p seen).1 = (handOff wcfg acfg' now r p seen).1 :=
  ⟨rfl, rfl, rfl⟩

/-- Supporting lemma: a single-character pattern makes `raAux` act
character by character. -/
theorem raAux_single (rep : List Char) (l : List Char) :
    raAux [squote] rep 0 l = l.flatMap fun c => if c = squote then rep else [c] := by
  induction l with
  | nil => rfl
  | cons c cs ih =>
      by_cases hc : c = squote
      · subst hc; simp [raAux, matchesAt, ih]
      · have hb : (squote == c) = false := beq_eq_false_iff_ne.mpr (Ne.symm hc)
        simp [raAux, matchesAt, hb, hc, ih]

/-- Supporting lemma: `shellEscape` seen character by character. -/
theorem shellEscape_data (s : String) : (shellEscape s).data = escL s.data := by
  show raAux ("'" : String).data ("'\"'\"'" : String).data 0 s.data = escL s.data
  rw [show ("'" : String).data = [squote] from by decide,
    show ("'\"'\"'" : String).data = [squote, dquote, squote, dquote, squote] from by decide,
    raAux_single]
  rfl

/-- Supporting lemma: escaping introduces no left brace. -/
theorem escL_no_lbrace {l : List Char} (h : lbrace ∉ l) : lbrace ∉ escL l := by
  intro hmem
  rcases List.mem_flatMap.mp hmem with ⟨c, hc, hcm⟩
  by_cases hcq : c = squote
  · rw [escChar, if_pos hcq] at hcm
    simp at hcm
    rcases hcm with h1 | h1 <;> exact absurd h1 (by decide)
  · rw [escChar, if_neg hcq] at hcm
    simp at hcm
    exact h (hcm ▸ hc)

/-- Supporting lemma: replacement skips over a segment that does not contain
the pattern's first character. -/
theorem raAux_notin_append (h : Char) (t rep xs ys : List Char) (hx : h ∉ xs) :
    raAux (h :: t) rep 0 (xs ++ ys) = xs ++ raAux (h :: t) rep 0 ys := by
  induction xs with
  | nil => rfl
  | cons x xs' ih =>
      have hxh : (h == x) = false :=
        beq_eq_false_iff_ne.mpr fun he => hx (he ▸ List.mem_cons_self x xs')
      have hmat : matchesAt (h :: t) (x :: (xs' ++ ys)) = false := by
        simp [matchesAt, hxh]
      rw [List.cons_append]
      show (if (!(h :: t).isEmpty && matchesAt (h :: t) (x :: (xs' ++ ys))) = true
        then rep ++ raAux (h :: t) rep ((h :: t).length - 1) (xs' ++ ys)
        else x :: raAux (h :: t) rep 0 (xs' ++ ys)) = x :: xs' ++ (raAux (h :: t) rep 0 ys)
      rw [if_neg (by simp [hmat])]
      rw [ih fun hm => hx (List.mem_cons_of_mem x hm)]
      rfl

/-- Supporting lemma: replacement leaves a list without the pattern's first
character untouched. -/
theorem raAux_notin_id (h : Char) (t rep l : List Char) (hx : h ∉ l) :
    raAux (h :: t) rep 0 l = l := by
  have := raAux_notin_append h t rep l [] hx
  simpa [raAux] using this

/-- Supporting lemma: inside single quotes, any non-quote character is
literal content. -/
theorem scanStep_inSingle_ne (C U : List Char) (c : Char) (hc : ¬ c = squote) :
    scanStep ⟨.inSingle, C, U⟩ c = ⟨.inSingle, C ++ [c], U⟩ := by
  simp [scanStep, hc]

/-- Supporting lemma: scanning an escaped value from inside single quotes
stays inside single quotes, contributes exactly the raw value as quoted
content, and contributes nothing unquoted. -/
theorem scan_escL (l : List Char) (C U : List Char) :
    List.foldl scanStep ⟨.inSingle, C, U⟩ (escL l) = ⟨.inSingle, C ++ l, U⟩ := by
  induction l generalizing C with
  | nil => simp [escL]
  | cons c cs ih =>
      have hsplit : escL (c :: cs) = escChar c ++ escL cs := by simp [escL]
      rw [hsplit, List.foldl_append]
      by_cases hc : c = squote
      · subst hc
        have hstep : List.foldl scanStep ⟨.inSingle, C, U⟩ (escChar squote)
            = ⟨.inSingle, C ++ [squote], U⟩ := by
          simp [escChar, scanStep, squote, dquote]
        rw [hstep, ih]
        simp
      · have hstep : List.foldl scanStep ⟨.inSingle, C, U⟩ (escChar c)
            = ⟨.inSingle, C ++ [c], U⟩ := by
          simp [escChar, hc, scanStep]
        rw [hstep, ih]
        simp

/-- Supporting lemma: the characters of the expansion of the single-quoted
template, for values free of `{`. -/
theorem expandTemplate_quoted_data (a : AgentConfig) (p : WebhookPayload)
    (hf : lbrace ∉ p.From.data) (hm : lbrace ∉ p.Message.data) :
    (expandTemplate a "'{from}:{message}'" p).data
      = squote :: (escL p.From.data ++ (':' :: (escL p.Message.data ++ [squote]))) := by
  have hF := shellEscape_data p.From
  have hM := shellEscape_data p.Message
  have hxs : lbrace ∉ (squote :: (escL p.From.data ++ [':']) : List Char) := by
    simp only [List.mem_cons, List.mem_append, List.mem_singleton, not_or]
    exact ⟨by decide, fun hmem => escL_no_lbrace hf hmem, by decide⟩
  have hI3 : lbrace ∉ ((squote :: (escL p.From.data ++ [':']))
      ++ (escL p.Message.data ++ [squote]) : List Char) := by
    simp only [List.mem_append, not_or]
    exact ⟨fun hmem => hxs hmem, by
      simp only [List.mem_append, List.mem_singleton, not_or]
      exact ⟨fun hmem => escL_no_lbrace hm hmem, by decide⟩⟩
  have h0 : (expandTemplate a "'{from}:{message}'" p).data
    = raAux ("{system_prompt}".data) (shellEscape a.systemPrompt).data 0
      (raAux ("{message_id}".data) (shellEscape p.MessageID).data 0
      (raAux ("{group_name}".data) (shellEscape p.GroupName).data 0
      (raAux ("{is_group}".data)
        (if p.ChatType == "group" then ("true" : String) else "false").data 0
      (raAux ("{type}".data) (shellEscape p.MsgType).data 0
      (raAux ("{chat_jid}".data) (shellEscape p.From).data 0
      (raAux ("{message}".data) (shellEscape p.Message).data 0
      (raAux ("{name}".data) (shellEscape p.Name).data 0
      (raAux ("{from}".data) (shellEscape p.From).data 0
        ("'{from}:{message}'".data))))))))) := rfl
  rw [h0, hF, hM]
  rw [show raAux ("{from}".data) (escL p.From.data) 0 ("'{from}:{message}'".data)
      = squote :: escL p.From.data ++ ':' :: "{message}'".data from rfl]
  rw [show (squote :: escL p.From.data ++ ':' :: "{message}'".data : List Char)
      = (squote :: (escL p.From.data ++ [':'])) ++ "{message}'".data by simp]
  rw [show ("{name}".data : List Char) = lbrace :: "name\x7d".data from rfl]
  rw [raAux_notin_append lbrace ("name\x7d".data) _ _ _ hxs]
  rw [show raAux (lbrace :: "name\x7d".data) (shellEscape p.Name).data 0 ("{message}'".data)
      = "{message}'".data from rfl]
  rw [show ("{message}".data : List Char) = lbrace :: "message\x7d".data from rfl]
  rw [raAux_notin_append lbrace ("message\x7d".data) _ _ _ hxs]
  rw [show raAux (lbrace :: "message\x7d".data) (escL p.Message.data) 0 ("{message}'".data)
      = escL p.Message.data ++ [squote] from rfl]
  rw [show ("{chat_jid}".data : List Char) = lbrace :: "chat_jid\x7d".data from rfl]
  rw [raAux_notin_id lbrace ("chat_jid\x7d".data) _ _ hI3]
  rw [show ("{type}".data : List Char) = lbrace :: "type\x7d".data from rfl]
  rw [raAux_notin_id lbrace ("type\x7d".data) _ _ hI3]
  rw [show ("{is_group}".data : List Char) = lbrace :: "is_group\x7d".data from rfl]
  rw [raAux_notin_id lbrace ("is_group\x7d".data) _ _ hI3]
  rw [show ("{group_name}".data : List Char) = lbrace :: "group_name\x7d".data from rfl]
  rw [raAux_notin_id lbrace ("group_name\x7d".data) _ _ hI3]
  rw [show ("{message_id}".data : List Char) = lbrace :: "message_id\x7d".data from rfl]
  rw [raAux_notin_id lbrace ("message_id\x7d".data) _ _ hI3]
  rw [show ("{system_prompt}".data : List Char) = lbrace :: "system_prompt\x7d".data from rfl]
  rw [raAux_notin_id lbrace ("system_prompt\x7d".data) _ _ hI3]
  simp

/-- Supporting lemma: scanning the expansion of the single-quoted template
ends unquoted, with the raw values as content and nothing outside quotes. -/
theorem expandTemplate_quoted_scan (a : AgentConfig) (p : WebhookPayload)
    (hf : lbrace ∉ p.From.data) (hm : lbrace ∉ p.Message.data) :
    scanQuotes (expandTemplate a "'{from}:{message}'" p)
      = ⟨.unq, p.From.data ++ ':' :: p.Message.data, []⟩ := by
  unfold scanQuotes
  rw [expandTemplate_quoted_data a p hf hm, List.foldl_cons]
  rw [show scanStep ⟨.unq, [], []⟩ squote = (⟨.inSingle, [], []⟩ : ScanState) from by
    simp [scanStep]]
  rw [List.foldl_append, scan_escL, List.foldl_cons,
    scanStep_inSingle_ne _ _ (':' : Char) (by decide),
    List.foldl_append, scan_escL, List.foldl_cons]
  rw [show scanStep ⟨.inSingle, (([] ++ p.From.data) ++ [':']) ++ p.Message.data, []⟩ squote
      = (⟨.unq, (([] ++ p.From.data) ++ [':']) ++ p.Message.data, []⟩ : ScanState) from by
    simp [scanStep]]
  simp

/-- C8 counterexample: for the template `{from}:{message}` exactly as the
claim writes it, a message containing a single quote expands to a command
with an unterminated double quote — not syntactically valid. -/
theorem expandTemplate_unquoted_cex :
    expandTemplate ⟨true, "command", "{from}:{message}", "", "", "", true, false, [], [], 30⟩
      "{from}:{message}" ⟨"123", "n", "it's", 0, "text", "", "dm", "", "ID7"⟩
      = "123:it'\"'\"'s"
    ∧ ¬ wellQuoted (expandTemplate
        ⟨true, "command", "{from}:{message}", "", "", "", true, false, [], [], 30⟩
        "{from}:{message}" ⟨"123", "n", "it's", 0, "text", "", "dm", "", "ID7"⟩)
    ∧ (scanQuotes (expandTemplate
        ⟨true, "command", "{from}:{message}", "", "", "", true, false, [], [], 30⟩
        "{from}:{message}" ⟨"123", "n", "it's", 0, "text", "", "dm", "", "ID7"⟩)).q
        = .inDouble := by
  refine ⟨by decide, by decide, by decide⟩

/-- C8 (amended): each substituted value is escaped for single-quoted shell
inclusion, so for the scenario template with its placeholders enclosed in
single quotes — `'{from}:{message}'` — and any from/message values without a
`{` (single quotes in the message included), the expanded command is
syntactically valid (balanced quoting), its literal content is exactly
`from:message`, and no character of the values lands outside quotes: the
value cannot break out of the intended argument. -/
theorem expandTemplate_single_quoted_safe (a : AgentConfig) (p : WebhookPayload)
    (hf : lbrace ∉ p.From.data) (hm : lbrace ∉ p.Message.data) :
    expandTemplate a "'{from}:{message}'" p
      = "'" ++ shellEscape p.From ++ ":" ++ shellEscape p.Message ++ "'"
    ∧ wellQuoted (expandTemplate a "'{from}:{message}'" p)
    ∧ (scanQuotes (expandTemplate a "'{from}:{message}'" p)).content
        = p.From.data ++ ':' :: p.Message.data
    ∧ (scanQuotes (expandTemplate a "'{from}:{message}'" p)).bare = [] := by
  have hscan := expandTemplate_quoted_scan a p hf hm
  refine ⟨?_, ?_, ?_, ?_⟩
  · apply String.ext
    rw [expandTemplate_quoted_data a p hf hm]
    show _ = ((((("'" : String).data ++ (shellEscape p.From).data)
      ++ (":" : String).data) ++ (shellEscape p.Message).data) ++ ("'" : String).data)
    rw [shellEscape_data, shellEscape_data,
      show ("'" : String).data = [squote] from by decide,
      show (":" : String).data = [':'] from by decide]
    simp
  · rw [wellQuoted, hscan]
  · rw [hscan]
  · rw [hscan]

/-- C8 witness: the amended theorem at a quote-containing message. -/
theorem expandTemplate_single_quoted_safe_witness :
    expandTemplate ⟨true, "command", "'{from}:{message}'", "", "", "", true, false, [], [], 30⟩
      "'{from}:{message}'" ⟨"123", "n", "it's", 0, "text", "", "dm", "", "ID8"⟩
      = "'" ++ shellEscape "123" ++ ":" ++ shellEscape "it's" ++ "'"
    ∧ wellQuoted (expandTemplate
        ⟨true, "command", "'{from}:{message}'", "", "", "", true, false, [], [], 30⟩
        "'{from}:{message}'" ⟨"123", "n", "it's", 0, "text", "", "dm", "", "ID8"⟩)
    ∧ (scanQuotes (expandTemplate
        ⟨true, "command", "'{from}:{message}'", "", "", "", true, false, [], [], 30⟩
        "'{from}:{message}'" ⟨"123", "n", "it's", 0, "text", "", "dm", "", "ID8"⟩)).content
        = "123".data ++ ':' :: "it's".data
    ∧ (scanQuotes (expandTemplate
        ⟨true, "command", "'{from}:{message}'", "", "", "", true, false, [], [], 30⟩
        "'{from}:{message}'" ⟨"123", "n", "it's", 0, "text", "", "dm", "", "ID8"⟩)).bare = [] :=
  expandTemplate_single_quoted_safe
    ⟨true, "command", "'{from}:{message}'", "", "", "", true, false, [], [], 30⟩
    ⟨"123", "n", "it's", 0, "text", "", "dm", "", "ID8"⟩ (by decide) (by decide)

end Bridge
